import Mathlib

/-!
Formal model of the systemd-panel core (src/app/auth.py, src/app/systemd.py,
src/app/server.py), shallowly embedded in Lean 4.

Python dictionaries are modelled as insertion-ordered association lists with
the `dget` / `dpop` / `dset` operations mirroring `dict.get`, `dict.pop` and
item assignment.  Timestamps (`time.time()` floats) are modelled as rationals;
each operation takes the current time as an explicit parameter.  Randomness
(`secrets.token_urlsafe`) is passed in as an explicit fresh-token parameter.
The HMAC-SHA256 hex digest is an abstract function parameter `hh` of the key
bytes and the message string; every control-flow decision of the source is
translated literally, including Python falsiness checks (`not exp` is true
for `None` and for `0.0`).
-/

/-- Model of `dict.get(k)` on an insertion-ordered association list. -/
def dget {β : Type} (k : String) : List (String × β) → Option β
  | [] => none
  | (a, v) :: rest => if a = k then some v else dget k rest

/-- Model of `dict.pop(k, None)`: the looked-up value (if any) together with
the dictionary with the first binding of `k` removed. -/
def dpop {β : Type} (k : String) : List (String × β) → Option β × List (String × β)
  | [] => (none, [])
  | (a, v) :: rest =>
    if a = k then (some v, rest)
    else
      let r := dpop k rest
      (r.1, (a, v) :: r.2)

/-- Model of `d[k] = v` on a Python dict: replace in place when the key is
present, append at the end otherwise. -/
def dset {β : Type} (k : String) (v : β) : List (String × β) → List (String × β)
  | [] => [(k, v)]
  | (a, w) :: rest => if a = k then (k, v) :: rest else (a, w) :: dset k v rest

/-- Model of Python `str.lower()` (per-code-point ASCII lowering, which is all
that hex digests exercise). -/
def pyLower (s : String) : String := String.mk (s.data.map Char.toLower)

/-- Model of Python `str.upper()` on ASCII data, used to build an
uppercase-hex rendering of a digest. -/
def pyUpper (s : String) : String := String.mk (s.data.map Char.toUpper)

/-- State of the `Auth` object from src/app/auth.py: the stored key bytes
(`bytes.fromhex(token_sha256_hex)`), the session TTL, and the two dicts
`_nonces : nonce -> expiry_ts` and `_sessions : sid -> expiry_ts`. -/
structure AuthState where
  key : List Nat
  ttl : ℚ
  nonces : List (String × ℚ)
  sessions : List (String × ℚ)
deriving DecidableEq

namespace Auth

/-- `Auth.make_nonce` (src/app/auth.py lines 21-29): store the freshly
generated nonce with expiry `now + 120.0` and return it. -/
def make_nonce (st : AuthState) (now : ℚ) (freshNonce : String) : String × AuthState :=
  (freshNonce, { st with nonces := dset freshNonce (now + 120) st.nonces })

/-- `Auth.verify_login` (src/app/auth.py lines 31-48).  `hh key msg` models
`hmac.new(self._key, msg.encode(), hashlib.sha256).hexdigest()`; `freshSid`
models `secrets.token_urlsafe(24)`.  The nonce is popped unconditionally;
`not exp` is true for a missing binding and for an expiry equal to `0`. -/
def verify_login (hh : List Nat → String → String) (st : AuthState) (now : ℚ)
    (freshSid : String) (nonce client_hmac_hex : String) : Option String × AuthState :=
  let p := dpop nonce st.nonces
  let st1 : AuthState := { st with nonces := p.2 }
  match p.1 with
  | none => (none, st1)
  | some exp =>
    if exp = 0 ∨ now > exp then (none, st1)
    else
      let expected := hh st.key nonce
      if expected = pyLower client_hmac_hex then
        (some freshSid, { st1 with sessions := dset freshSid (now + st.ttl) st1.sessions })
      else (none, st1)

/-- `Auth.validate_sid` (src/app/auth.py lines 50-65): look up the session,
fail on a falsy expiry, evict and fail when `now > exp`, otherwise slide the
expiry to `now + ttl` and succeed. -/
def validate_sid (st : AuthState) (now : ℚ) (sid : String) : Bool × AuthState :=
  match dget sid st.sessions with
  | none => (false, st)
  | some exp =>
    if exp = 0 then (false, st)
    else if now > exp then (false, { st with sessions := (dpop sid st.sessions).2 })
    else (true, { st with sessions := dset sid (now + st.ttl) st.sessions })

/-- `Auth.revoke_sid` (src/app/auth.py lines 67-75). -/
def revoke_sid (st : AuthState) (sid : String) : AuthState :=
  { st with sessions := (dpop sid st.sessions).2 }

end Auth

/-! ### Association-list lemmas (Python dict semantics) -/

theorem dget_dset_self {β : Type} (k : String) (v : β) (l : List (String × β)) :
    dget k (dset k v l) = some v := by
  induction l with
  | nil => simp [dget, dset]
  | cons a rest ih =>
    by_cases h : a.1 = k
    · simp [dget, dset, h]
    · simp [dget, dset, h, ih]

theorem dset_of_dget_none {β : Type} {k : String} {l : List (String × β)} (v : β)
    (h : dget k l = none) : dset k v l = l ++ [(k, v)] := by
  induction l with
  | nil => simp [dset]
  | cons a rest ih =>
    by_cases ha : a.1 = k
    · simp [dget, ha] at h
    · simp [dget, ha] at h
      simp [dset, ha, ih h]

theorem dpop_of_dget_none {β : Type} {k : String} {l : List (String × β)}
    (h : dget k l = none) : dpop k l = (none, l) := by
  induction l with
  | nil => simp [dpop]
  | cons a rest ih =>
    by_cases ha : a.1 = k
    · simp [dget, ha] at h
    · simp [dget, ha] at h
      simp [dpop, ha, ih h]

theorem dpop_append_fresh {β : Type} {k : String} {l : List (String × β)} (v : β)
    (h : dget k l = none) : dpop k (l ++ [(k, v)]) = (some v, l) := by
  induction l with
  | nil => simp [dpop]
  | cons a rest ih =>
    by_cases ha : a.1 = k
    · simp [dget, ha] at h
    · simp [dget, ha] at h
      simp [dpop, ha, ih h]

theorem dget_eq_none_of_not_mem {β : Type} {k : String} {l : List (String × β)}
    (h : k ∉ l.map Prod.fst) : dget k l = none := by
  induction l with
  | nil => simp [dget]
  | cons a rest ih =>
    simp only [List.map_cons, List.mem_cons, not_or] at h
    have hak : a.1 ≠ k := fun hc => h.1 hc.symm
    simp [dget, hak, ih h.2]

theorem dget_dpop_snd_of_nodup {β : Type} {k : String} {l : List (String × β)}
    (h : (l.map Prod.fst).Nodup) : dget k (dpop k l).2 = none := by
  induction l with
  | nil => simp [dpop, dget]
  | cons a rest ih =>
    simp only [List.map_cons, List.nodup_cons] at h
    by_cases ha : a.1 = k
    · simp only [dpop, if_pos ha]
      exact dget_eq_none_of_not_mem (ha ▸ h.1)
    · simp only [dpop, if_neg ha]
      simpa [dget, ha] using ih h.2

theorem dget_of_mem_nodup {β : Type} {k : String} {v : β} {l : List (String × β)}
    (h : (l.map Prod.fst).Nodup) (hm : (k, v) ∈ l) : dget k l = some v := by
  induction l with
  | nil => simp at hm
  | cons a rest ih =>
    simp only [List.map_cons, List.nodup_cons] at h
    rcases List.mem_cons.mp hm with h1 | h1
    · subst h1
      simp [dget]
    · have hak : a.1 ≠ k := by
        intro hcontra
        exact (hcontra ▸ h.1) (List.mem_map_of_mem Prod.fst h1)
      simp [dget, hak, ih h.2 h1]

/-! ### Character-case lemmas for the proof comparison -/

theorem char_toNat_ofNat_add32 {n : Nat} (h1 : 65 ≤ n) (h2 : n ≤ 90) :
    (Char.ofNat (n + 32)).toNat = n + 32 := by
  interval_cases n <;> decide

theorem char_toNat_ofNat_sub32 {n : Nat} (h1 : 97 ≤ n) (h2 : n ≤ 122) :
    (Char.ofNat (n - 32)).toNat = n - 32 := by
  interval_cases n <;> decide

theorem char_toLower_toLower (c : Char) : c.toLower.toLower = c.toLower := by
  unfold Char.toLower
  by_cases h : c.toNat ≥ 65 ∧ c.toNat ≤ 90
  · rw [if_pos h]
    have ht := char_toNat_ofNat_add32 h.1 h.2
    rw [if_neg]
    rw [ht]
    omega
  · rw [if_neg h, if_neg h]

theorem char_toLower_toUpper_of_fixed {c : Char} (h : c.toLower = c) :
    c.toUpper.toLower = c := by
  unfold Char.toUpper
  by_cases hu : c.toNat ≥ 97 ∧ c.toNat ≤ 122
  · rw [if_pos hu]
    have ht := char_toNat_ofNat_sub32 hu.1 hu.2
    unfold Char.toLower
    rw [if_pos (by rw [ht]; omega), ht]
    have : c.toNat - 32 + 32 = c.toNat := by omega
    rw [this, Char.ofNat_toNat]
  · rw [if_neg hu]
    exact h

theorem char_toLower_fixed_of_not_upper {c : Char} (h : ¬ (c.toNat ≥ 65 ∧ c.toNat ≤ 90)) :
    c.toLower = c := by
  unfold Char.toLower
  rw [if_neg h]

theorem char_toLower_not_fixed_of_upper {c : Char} (h : c.toNat ≥ 65 ∧ c.toNat ≤ 90) :
    c.toLower ≠ c := by
  unfold Char.toLower
  rw [if_pos h]
  intro hcontra
  have := congrArg Char.toNat hcontra
  rw [char_toNat_ofNat_add32 h.1 h.2] at this
  omega

theorem list_map_eq_self_mem {α : Type} {f : α → α} {l : List α}
    (h : l.map f = l) : ∀ c ∈ l, f c = c := by
  induction l with
  | nil => simp
  | cons a rest ih =>
    simp only [List.map_cons, List.cons.injEq] at h
    intro c hc
    rcases List.mem_cons.mp hc with h1 | h1
    · exact h1 ▸ h.1
    · exact ih h.2 c h1

theorem pyLower_pyLower (s : String) : pyLower (pyLower s) = pyLower s := by
  unfold pyLower
  apply String.ext
  simp only [List.map_map]
  exact List.map_congr_left fun c _ => char_toLower_toLower c

theorem pyLower_pyUpper_of_fixed {s : String} (h : pyLower s = s) :
    pyLower (pyUpper s) = s := by
  have hdata : s.data.map Char.toLower = s.data := by
    have := congrArg String.data h
    simpa [pyLower] using this
  have hfix := list_map_eq_self_mem hdata
  unfold pyLower pyUpper
  apply String.ext
  simp only [List.map_map]
  calc s.data.map (Char.toLower ∘ Char.toUpper)
      = s.data.map id := List.map_congr_left fun c hc =>
        char_toLower_toUpper_of_fixed (hfix c hc)
    _ = s.data := List.map_id s.data

/-! ### Claim theorems about the Auth manager -/

/-- C10: issuing a challenge never evicts anything.  For every initial state,
`make_nonce` (with a fresh random token) returns the token, appends exactly
one nonce entry with expiry `now + 120`, and leaves every pre-existing nonce
entry, every session entry, the key and the TTL unchanged; in particular no
expired nonce is removed at issuance time. -/
theorem C10_make_nonce_frame (st : AuthState) (now : ℚ) (n : String)
    (hfresh : dget n st.nonces = none) :
    (Auth.make_nonce st now n).1 = n ∧
    (Auth.make_nonce st now n).2.nonces = st.nonces ++ [(n, now + 120)] ∧
    (Auth.make_nonce st now n).2.sessions = st.sessions ∧
    (Auth.make_nonce st now n).2.key = st.key ∧
    (Auth.make_nonce st now n).2.ttl = st.ttl := by
  refine ⟨rfl, ?_, rfl, rfl, rfl⟩
  simp [Auth.make_nonce, dset_of_dget_none _ hfresh]

/-- Witness for C10 at a concrete state holding an expired nonce and a
session. -/
theorem C10_make_nonce_frame_witness :
    (Auth.make_nonce ⟨[], 60, [("m", 30)], [("s", 40)]⟩ 500 "n1").1 = "n1" ∧
    (Auth.make_nonce ⟨[], 60, [("m", 30)], [("s", 40)]⟩ 500 "n1").2.nonces
      = [("m", 30)] ++ [("n1", 500 + 120)] ∧
    (Auth.make_nonce ⟨[], 60, [("m", 30)], [("s", 40)]⟩ 500 "n1").2.sessions = [("s", 40)] ∧
    (Auth.make_nonce ⟨[], 60, [("m", 30)], [("s", 40)]⟩ 500 "n1").2.key = [] ∧
    (Auth.make_nonce ⟨[], 60, [("m", 30)], [("s", 40)]⟩ 500 "n1").2.ttl = 60 :=
  C10_make_nonce_frame ⟨[], 60, [("m", 30)], [("s", 40)]⟩ 500 "n1" (by decide)

/-- C9: a failed login attempt creates no session.  Whenever `verify_login`
returns `None` the session store is unchanged. -/
theorem C9_failed_login_no_session (hh : List Nat → String → String) (st : AuthState)
    (now : ℚ) (freshSid nonce proof : String)
    (h : (Auth.verify_login hh st now freshSid nonce proof).1 = none) :
    (Auth.verify_login hh st now freshSid nonce proof).2.sessions = st.sessions := by
  unfold Auth.verify_login at h ⊢
  cases hp : (dpop nonce st.nonces).1 with
  | none => simp [hp]
  | some exp =>
    simp only [hp] at h ⊢
    by_cases hc : exp = 0 ∨ now > exp
    · simp [hc]
    · simp only [if_neg hc] at h ⊢
      by_cases he : hh st.key nonce = pyLower proof
      · simp [he] at h
      · simp [he]

/-- Witness for C9: an unknown nonce fails and leaves the sessions intact. -/
theorem C9_failed_login_no_session_witness :
    (Auth.verify_login (fun _ _ => "ab") ⟨[], 60, [], [("s", 40)]⟩ 0 "sid" "n" "p").1
      = none ∧
    (Auth.verify_login (fun _ _ => "ab") ⟨[], 60, [], [("s", 40)]⟩ 0 "sid" "n" "p").2.sessions
      = [("s", 40)] :=
  ⟨by decide,
   C9_failed_login_no_session (fun _ _ => "ab") ⟨[], 60, [], [("s", 40)]⟩ 0 "sid" "n" "p"
     (by decide)⟩

/-- C1: a challenge nonce can be redeemed at most once.  After issuing a
fresh nonce at time `t0`: (a) a first `verify_login` within the 120s window
with the correct proof returns the fresh session id; (b) after any first
redemption attempt (correct or incorrect proof, any time) the nonce entry is
gone; (c) hence any second `verify_login` with the same nonce returns
`none`. -/
theorem C1_nonce_single_use (hh : List Nat → String → String) (st0 : AuthState)
    (t0 : ℚ) (n : String) (hfresh : dget n st0.nonces = none) (h0 : 0 ≤ t0) :
    (∀ t1 freshSid proof, t1 ≤ t0 + 120 → pyLower proof = hh st0.key n →
        (Auth.verify_login hh (Auth.make_nonce st0 t0 n).2 t1 freshSid n proof).1
          = some freshSid) ∧
    (∀ t1 freshSid proof,
        dget n (Auth.verify_login hh (Auth.make_nonce st0 t0 n).2 t1 freshSid n proof).2.nonces
          = none) ∧
    (∀ t1 freshSid proof t2 freshSid2 proof2,
        (Auth.verify_login hh
            (Auth.verify_login hh (Auth.make_nonce st0 t0 n).2 t1 freshSid n proof).2
            t2 freshSid2 n proof2).1 = none) := by
  have hpop2 : dpop n (dset n (t0 + 120) st0.nonces) = (some (t0 + 120), st0.nonces) := by
    rw [dset_of_dget_none _ hfresh]
    exact dpop_append_fresh _ hfresh
  have hdel : ∀ t1 freshSid proof,
      (Auth.verify_login hh (Auth.make_nonce st0 t0 n).2 t1 freshSid n proof).2.nonces
        = st0.nonces := by
    intro t1 freshSid proof
    simp only [Auth.make_nonce, Auth.verify_login, hpop2]
    split_ifs <;> rfl
  refine ⟨?_, ?_, ?_⟩
  · intro t1 freshSid proof ht hproof
    have hc : ¬ (t0 + 120 = 0 ∨ t1 > t0 + 120) := by
      push_neg
      exact ⟨by linarith, by linarith⟩
    simp only [Auth.make_nonce, Auth.verify_login, hpop2]
    rw [if_neg hc, if_pos hproof.symm]
  · intro t1 freshSid proof
    rw [hdel t1 freshSid proof]
    exact hfresh
  · intro t1 freshSid proof t2 freshSid2 proof2
    have hnon2 := hdel t1 freshSid proof
    generalize hMid :
      (Auth.verify_login hh (Auth.make_nonce st0 t0 n).2 t1 freshSid n proof).2 = stMid
    rw [hMid] at hnon2
    have hpop3 : dpop n stMid.nonces = (none, stMid.nonces) := by
      rw [hnon2]
      exact dpop_of_dget_none hfresh
    simp [Auth.verify_login, hpop3]

/-- Witness for C1 at a concrete empty initial state with a fixed digest
function. -/
theorem C1_nonce_single_use_witness :
    (∀ t1 freshSid proof, t1 ≤ (0:ℚ) + 120 →
        pyLower proof = (fun (_ : List Nat) (_ : String) => "ab") ([] : List Nat) "n1" →
        (Auth.verify_login (fun _ _ => "ab")
            (Auth.make_nonce ⟨[], 60, [], []⟩ 0 "n1").2 t1 freshSid "n1" proof).1
          = some freshSid) ∧
    (∀ t1 freshSid proof,
        dget "n1" (Auth.verify_login (fun _ _ => "ab")
            (Auth.make_nonce ⟨[], 60, [], []⟩ 0 "n1").2 t1 freshSid "n1" proof).2.nonces
          = none) ∧
    (∀ t1 freshSid proof t2 freshSid2 proof2,
        (Auth.verify_login (fun _ _ => "ab")
            (Auth.verify_login (fun _ _ => "ab")
                (Auth.make_nonce ⟨[], 60, [], []⟩ 0 "n1").2 t1 freshSid "n1" proof).2
            t2 freshSid2 "n1" proof2).1 = none) :=
  C1_nonce_single_use (fun _ _ => "ab") ⟨[], 60, [], []⟩ 0 "n1" (by decide) (by decide)

/-- C2 counterexample: a session last validated at time t0 = 90 with TTL
T = 10 is stored with rolling deadline 100, yet a call exactly at the
deadline (now = 100, i.e. "at ... the rolling deadline") still returns true
and slides the deadline to now + TTL, because the source only fails when
`time.time() > exp` holds strictly. -/
theorem C2_counterexample :
    (Auth.validate_sid ⟨[], 10, [], [("s", 100)]⟩ 100 "s").1 = true ∧
    dget "s" (Auth.validate_sid ⟨[], 10, [], [("s", 100)]⟩ 100 "s").2.sessions
      = some (100 + 10) := by
  constructor <;> rfl

/-- C2 (amended): session expiry is a sliding window with an inclusive
deadline.  For a stored deadline `exp` (nonzero, unique key), `validate_sid`
returns true for any call at or before `exp` and then sets the deadline to
`now + ttl`; for any call strictly after `exp` it returns false and evicts
the session.  Nonces are untouched either way. -/
theorem C2_sliding_window (st : AuthState) (now : ℚ) (sid : String) (exp : ℚ)
    (hget : dget sid st.sessions = some exp) (hne : exp ≠ 0)
    (hnd : (st.sessions.map Prod.fst).Nodup) :
    (now ≤ exp →
      (Auth.validate_sid st now sid).1 = true ∧
      dget sid (Auth.validate_sid st now sid).2.sessions = some (now + st.ttl)) ∧
    (exp < now →
      (Auth.validate_sid st now sid).1 = false ∧
      dget sid (Auth.validate_sid st now sid).2.sessions = none) ∧
    (Auth.validate_sid st now sid).2.nonces = st.nonces := by
  refine ⟨?_, ?_, ?_⟩
  · intro hle
    have hngt : ¬ now > exp := not_lt.mpr hle
    simp only [Auth.validate_sid, hget, if_neg hne, if_neg hngt]
    exact ⟨trivial, dget_dset_self sid (now + st.ttl) st.sessions⟩
  · intro hlt
    simp only [Auth.validate_sid, hget, if_neg hne, if_pos hlt]
    exact ⟨trivial, dget_dpop_snd_of_nodup hnd⟩
  · simp only [Auth.validate_sid, hget]
    split_ifs <;> rfl

/-- Witness for the amended C2 at a concrete session store. -/
theorem C2_sliding_window_witness :
    ((50:ℚ) ≤ 100 →
      (Auth.validate_sid ⟨[], 10, [], [("s", 100)]⟩ 50 "s").1 = true ∧
      dget "s" (Auth.validate_sid ⟨[], 10, [], [("s", 100)]⟩ 50 "s").2.sessions
        = some (50 + (10:ℚ))) ∧
    ((100:ℚ) < 50 →
      (Auth.validate_sid ⟨[], 10, [], [("s", 100)]⟩ 50 "s").1 = false ∧
      dget "s" (Auth.validate_sid ⟨[], 10, [], [("s", 100)]⟩ 50 "s").2.sessions = none) ∧
    (Auth.validate_sid ⟨[], 10, [], [("s", 100)]⟩ 50 "s").2.nonces = [] :=
  C2_sliding_window ⟨[], 10, [], [("s", 100)]⟩ 50 "s" 100 (by decide) (by decide) (by decide)

/-- C7: proof comparison is case-insensitive.  With the same initial state,
time and fresh session id, `verify_login` behaves identically on a proof and
on its lowercased form; and when the expected digest is already lowercase
(as hex digests are), an uppercase rendering of it is treated exactly like
the digest itself. -/
theorem C7_proof_case_insensitive (hh : List Nat → String → String) (st : AuthState)
    (now : ℚ) (freshSid nonce proof : String) :
    Auth.verify_login hh st now freshSid nonce (pyLower proof)
      = Auth.verify_login hh st now freshSid nonce proof ∧
    (pyLower (hh st.key nonce) = hh st.key nonce →
      Auth.verify_login hh st now freshSid nonce (pyUpper (hh st.key nonce))
        = Auth.verify_login hh st now freshSid nonce (hh st.key nonce)) := by
  constructor
  · simp only [Auth.verify_login, pyLower_pyLower]
  · intro hfix
    simp only [Auth.verify_login, pyLower_pyUpper_of_fixed hfix, hfix]

/-- Witness for C7: the uppercase rendering "AB" of the lowercase digest
"ab" is accepted exactly when the digest itself is. -/
theorem C7_proof_case_insensitive_witness :
    Auth.verify_login (fun _ _ => "ab") ⟨[], 60, [("n", 50)], []⟩ 0 "sid" "n" (pyLower "AB")
      = Auth.verify_login (fun _ _ => "ab") ⟨[], 60, [("n", 50)], []⟩ 0 "sid" "n" "AB" ∧
    Auth.verify_login (fun _ _ => "ab") ⟨[], 60, [("n", 50)], []⟩ 0 "sid" "n" (pyUpper "ab")
      = Auth.verify_login (fun _ _ => "ab") ⟨[], 60, [("n", 50)], []⟩ 0 "sid" "n" "ab" :=
  ⟨(C7_proof_case_insensitive (fun _ _ => "ab") ⟨[], 60, [("n", 50)], []⟩ 0 "sid" "n" "AB").1,
   (C7_proof_case_insensitive (fun _ _ => "ab") ⟨[], 60, [("n", 50)], []⟩ 0 "sid" "n" "AB").2
     (by decide)⟩

/-! ### POST /api/auth/login route (src/app/server.py lines 73-83) -/

/-- `dict.get(k, "")` on the parsed JSON body. -/
def pyGetStr (data : List (String × String)) (k : String) : String :=
  (dget k data).getD ""

/-- Observable part of the login response: HTTP status, the `ok` flag and
`error` field of the JSON body, and the `set-cookie` header if any. -/
structure LoginResponse where
  status : Nat
  ok : Bool
  error : Option String
  setCookie : Option String
deriving DecidableEq

/-- The `POST /api/auth/login` branch of `app` (src/app/server.py lines
73-83): read `nonce` and `hmac` from the body, call `verify_login`, answer
401 `ok=false, error="invalid"` on a falsy session id, otherwise 200
`ok=true` with the session cookie (plus `; Secure` when configured). -/
def login_route (hh : List Nat → String → String) (cookie_secure : Bool)
    (st : AuthState) (now : ℚ) (freshSid : String) (data : List (String × String)) :
    LoginResponse × AuthState :=
  let nonce := pyGetStr data "nonce"
  let client_hmac := pyGetStr data "hmac"
  let r := Auth.verify_login hh st now freshSid nonce client_hmac
  match r.1 with
  | none => (⟨401, false, some "invalid", none⟩, r.2)
  | some sid =>
    if sid = "" then (⟨401, false, some "invalid", none⟩, r.2)
    else
      let cookie := "sid=" ++ sid ++ "; HttpOnly; Path=/; SameSite=Lax"
        ++ (if cookie_secure then "; Secure" else "")
      (⟨200, true, none, some cookie⟩, r.2)

/-- `dpop` looks up the same binding `dget` finds. -/
theorem dpop_fst_eq_dget {β : Type} (k : String) (l : List (String × β)) :
    (dpop k l).1 = dget k l := by
  induction l with
  | nil => simp [dpop, dget]
  | cons a rest ih =>
    by_cases ha : a.1 = k
    · simp [dpop, dget, ha]
    · simp [dpop, dget, ha, ih]

/-- Successful redemption: an unexpired, nonzero-expiry nonce together with
a matching proof yields the fresh session id. -/
theorem verify_login_success (hh : List Nat → String → String) (st : AuthState)
    (now : ℚ) (freshSid nonce proof : String) (exp : ℚ)
    (hget : dget nonce st.nonces = some exp) (hne : exp ≠ 0) (htime : now ≤ exp)
    (hproof : hh st.key nonce = pyLower proof) :
    (Auth.verify_login hh st now freshSid nonce proof).1 = some freshSid := by
  have h1 : (dpop nonce st.nonces).1 = some exp := by
    rw [dpop_fst_eq_dget]
    exact hget
  have hc : ¬ (exp = 0 ∨ now > exp) := by
    push_neg
    exact ⟨hne, htime⟩
  simp only [Auth.verify_login, h1]
  rw [if_neg hc, if_pos hproof]

/-- Witness for `verify_login_success` at a concrete state. -/
theorem verify_login_success_witness :
    (Auth.verify_login (fun _ _ => "ab") ⟨[], 60, [("n1", 200)], []⟩ 10 "sid1" "n1" "AB").1
      = some "sid1" :=
  verify_login_success (fun _ _ => "ab") ⟨[], 60, [("n1", 200)], []⟩ 10 "sid1" "n1" "AB"
    200 (by decide) (by decide) (by decide) (by decide)

/-- C5 counterexample: a request whose body carries the challenge under
`"nonce"` and the correct proof under `"proof"` — exactly the shape the
claim describes — is rejected with 401 `ok=false, error="invalid"`, because
the handler reads the proof from the `"hmac"` field. -/
theorem C5_counterexample :
    pyLower "ab" = (fun (_ : List Nat) (_ : String) => "ab") ([] : List Nat) "n1" ∧
    dget "n1" (⟨[], 60, [("n1", 200)], []⟩ : AuthState).nonces = some 200 ∧
    (10:ℚ) ≤ 200 ∧
    (login_route (fun _ _ => "ab") false ⟨[], 60, [("n1", 200)], []⟩ 10 "sid1"
        [("nonce", "n1"), ("proof", "ab")]).1
      = ⟨401, false, some "invalid", none⟩ := by
  refine ⟨rfl, rfl, by decide, rfl⟩

/-- C5 (amended): `POST /login` with body fields `"nonce"` and `"hmac"`
returns 200 `ok=true` with the session cookie (`HttpOnly`, `Path=/`,
`SameSite=Lax`, plus `Secure` when configured) when the nonce is valid and
the proof matches, and returns 401 `ok=false, error="invalid"` on any
redemption failure. -/
theorem C5_login_route (hh : List Nat → String → String) (secure : Bool)
    (st : AuthState) (now : ℚ) (freshSid : String) (data : List (String × String))
    (exp : ℚ) :
    ((dget (pyGetStr data "nonce") st.nonces = some exp) → exp ≠ 0 → now ≤ exp →
      hh st.key (pyGetStr data "nonce") = pyLower (pyGetStr data "hmac") →
      freshSid ≠ "" →
      (login_route hh secure st now freshSid data).1
        = ⟨200, true, none,
            some ("sid=" ++ freshSid ++ "; HttpOnly; Path=/; SameSite=Lax"
              ++ (if secure then "; Secure" else ""))⟩) ∧
    ((Auth.verify_login hh st now freshSid (pyGetStr data "nonce")
          (pyGetStr data "hmac")).1 = none →
      (login_route hh secure st now freshSid data).1
        = ⟨401, false, some "invalid", none⟩) := by
  constructor
  · intro hget hne htime hproof hsid
    have hs := verify_login_success hh st now freshSid (pyGetStr data "nonce")
      (pyGetStr data "hmac") exp hget hne htime hproof
    simp only [login_route, hs]
    rw [if_neg hsid]
  · intro hfail
    simp only [login_route, hfail]

/-- Witness for the amended C5: both the success response (with the Secure
attribute configured) and the failure response at concrete inputs. -/
theorem C5_login_route_witness :
    (login_route (fun _ _ => "ab") true ⟨[], 60, [("n1", 200)], []⟩ 10 "sid1"
        [("nonce", "n1"), ("hmac", "AB")]).1
      = ⟨200, true, none,
          some ("sid=" ++ "sid1" ++ "; HttpOnly; Path=/; SameSite=Lax"
            ++ (if true then "; Secure" else ""))⟩ ∧
    (login_route (fun _ _ => "ab") true ⟨[], 60, [], []⟩ 10 "sid1"
        [("nonce", "n1"), ("hmac", "AB")]).1
      = ⟨401, false, some "invalid", none⟩ :=
  ⟨(C5_login_route (fun _ _ => "ab") true ⟨[], 60, [("n1", 200)], []⟩ 10 "sid1"
      [("nonce", "n1"), ("hmac", "AB")] 200).1 (by decide) (by decide) (by decide)
      (by decide) (by decide),
   (C5_login_route (fun _ _ => "ab") true ⟨[], 60, [], []⟩ 10 "sid1"
      [("nonce", "n1"), ("hmac", "AB")] 0).2 (by decide)⟩

/-! ### Status bus (src/app/systemd.py lines 252-404)

A subscriber mailbox (`asyncio.Queue(maxsize=1)`) is modelled as the list of
its queued items, oldest first; the bus state carries the poke-event flag
and the registered mailboxes.  `σ` is the snapshot type, treated as opaque
by the bus like in the source. -/

/-- `StatusBus` instance state: the `_poke` event flag and the `_subs`
mailboxes. -/
structure BusState (σ : Type) where
  poke : Bool
  subs : List (List σ)
deriving DecidableEq

namespace StatusBus

/-- Capacity of a subscriber mailbox (`asyncio.Queue(maxsize=1)`). -/
def mailboxCap : Nat := 1

/-- One deposit of `StatusBus._broadcast` (src/app/systemd.py lines
315-322) into a single mailbox: `if q.full(): q.get_nowait()` then
`q.put_nowait(snapshot)`.  `none` models the `except` path (a dead queue):
`get_nowait` on an empty queue or `put_nowait` on a still-full queue would
raise.  A successful deposit never waits, mirroring the `_nowait` calls. -/
def depositOne {σ : Type} (snap : σ) (q : List σ) : Option (List σ) :=
  match (if q.length ≥ mailboxCap then q.tail? else some q) with
  | none => none
  | some q1 => if q1.length ≥ mailboxCap then none else some (q1 ++ [snap])

/-- `StatusBus._broadcast` (src/app/systemd.py lines 307-324): deposit into
every mailbox, then discard the mailboxes whose deposit raised. -/
def broadcast {σ : Type} (subs : List (List σ)) (snap : σ) : List (List σ) :=
  subs.filterMap (depositOne snap)

/-- `StatusBus.subscribe` (src/app/systemd.py lines 326-334): register a
new empty single-slot mailbox and hand it to the caller. -/
def subscribe {σ : Type} (st : BusState σ) : BusState σ × List σ :=
  ({ st with subs := st.subs ++ [[]] }, [])

/-- `StatusBus.trigger` (src/app/systemd.py lines 346-352): set the poke
event. -/
def trigger {σ : Type} (st : BusState σ) : BusState σ :=
  { st with poke := true }

/-- One iteration of `StatusBus._run` (src/app/systemd.py lines 292-305).
The `try`/`except asyncio.TimeoutError` guards only the
`asyncio.wait_for(self._poke.wait(), ...)` call, so the wake-up (poke or
timeout) never escapes; the poke flag is then cleared and
`services_snapshot` is awaited OUTSIDE any handler.  `provider` is the
outcome of that await: `Except.ok` a snapshot, or `Except.error` the raised
exception, which propagates out of `_run` and terminates the background
task (modelled by the iteration returning `Except.error`). -/
def runIteration {σ ε : Type} (st : BusState σ) (provider : Except ε σ) :
    Except ε (BusState σ) :=
  let st1 : BusState σ := { st with poke := false }
  match provider with
  | Except.error e => Except.error e
  | Except.ok snap => Except.ok { st1 with subs := broadcast st1.subs snap }

end StatusBus

/-- First phase of the `status_stream` async generator (src/app/systemd.py
lines 386-404): subscribe a fresh mailbox, then yield one snapshot computed
synchronously by `services_snapshot` at subscribe time (`freshSnapshot` is
that provider result).  Returned are the bus state after subscription, the
subscriber's mailbox as left untouched by the first yield, and the yielded
snapshot; only after this does the generator enter the `await q.get()`
loop. -/
def status_stream_start {σ : Type} (st : BusState σ) (freshSnapshot : σ) :
    BusState σ × List σ × σ :=
  let r := StatusBus.subscribe st
  (r.1, r.2, freshSnapshot)

/-! ### Claim theorems about the status bus -/

/-- C3 evaluation: when `services_snapshot` raises during one iteration of
`StatusBus._run`, the exception is not caught and the iteration — hence the
background task — terminates with that exception instead of continuing to
the next tick.  This contradicts the claim (and §7 of the spec), which
requires the loop to keep running across provider errors. -/
theorem C3_run_dies_on_provider_error {σ ε : Type} (st : BusState σ) (e : ε) :
    StatusBus.runIteration st (Except.error e) = Except.error e := rfl

/-- C4: with every registered mailbox holding at most one pending snapshot
(the invariant maintained by capacity-1 queues), a broadcast deposits the
new snapshot into every mailbox without a single failure: a previously
pending snapshot is dropped in favour of the new one, afterwards every
mailbox holds exactly the most recent snapshot (so never more than one),
and no subscriber is discarded as dead.  A fresh subscription starts empty,
within capacity. -/
theorem C4_broadcast_drop_oldest {σ : Type} (snap : σ) (subs : List (List σ))
    (hinv : ∀ q ∈ subs, q.length ≤ StatusBus.mailboxCap) :
    StatusBus.broadcast subs snap = subs.map (fun _ => [snap]) ∧
    (∀ q ∈ StatusBus.broadcast subs snap, q = [snap] ∧ q.length ≤ StatusBus.mailboxCap) ∧
    (∀ st : BusState σ, (StatusBus.subscribe st).2.length ≤ StatusBus.mailboxCap) := by
  have hone : ∀ q : List σ, q.length ≤ StatusBus.mailboxCap →
      StatusBus.depositOne snap q = some [snap] := by
    intro q hq
    match q with
    | [] => rfl
    | [x] => rfl
    | x :: y :: rest => simp [StatusBus.mailboxCap] at hq
  have hmain : StatusBus.broadcast subs snap = subs.map (fun _ => [snap]) := by
    induction subs with
    | nil => rfl
    | cons q rest ih =>
      have hq := hinv q (List.mem_cons_self q rest)
      have hrest : ∀ q ∈ rest, q.length ≤ StatusBus.mailboxCap := fun p hp =>
        hinv p (List.mem_cons_of_mem q hp)
      simp [StatusBus.broadcast, hone q hq] at ih ⊢
      exact ih hrest
  refine ⟨hmain, ?_, fun st => by simp [StatusBus.subscribe]⟩
  intro q hq
  rw [hmain] at hq
  rcases List.mem_map.mp hq with ⟨p, hp, hback⟩
  subst hback
  exact ⟨rfl, by simp [StatusBus.mailboxCap]⟩

/-- Witness for C4: one empty mailbox and one mailbox holding a stale
snapshot, broadcast of the value 7. -/
theorem C4_broadcast_drop_oldest_witness :
    StatusBus.broadcast [[], [3]] 7 = [[], [3]].map (fun _ => [7]) ∧
    (∀ q ∈ StatusBus.broadcast [[], [3]] 7, q = [7] ∧ q.length ≤ StatusBus.mailboxCap) ∧
    (∀ st : BusState ℕ, (StatusBus.subscribe st).2.length ≤ StatusBus.mailboxCap) :=
  C4_broadcast_drop_oldest 7 [[], [3]] (by decide)

/-- C6: subscribing yields one freshly computed snapshot immediately.  The
first value yielded by `status_stream` equals the provider snapshot computed
at subscribe time, the subscriber's own mailbox is not consulted for it
(it is still empty right after the first yield), and a `trigger()` issued
just before subscribing changes neither the yielded snapshot nor the
mailbox — the pending poke flag survives for the producer loop to handle
separately. -/
theorem C6_immediate_snapshot {σ : Type} (st : BusState σ) (snap : σ) :
    (status_stream_start (StatusBus.trigger st) snap).2.2 = snap ∧
    (status_stream_start (StatusBus.trigger st) snap).2.1 = [] ∧
    (status_stream_start (StatusBus.trigger st) snap).2.2
      = (status_stream_start st snap).2.2 ∧
    (status_stream_start (StatusBus.trigger st) snap).2.1
      = (status_stream_start st snap).2.1 ∧
    (status_stream_start (StatusBus.trigger st) snap).1.poke = true :=
  ⟨rfl, rfl, rfl, rfl, rfl⟩

/-! ### Snapshot provider (src/app/systemd.py lines 70-116)

`discover_units` returns a dict `unit name -> absolute path`; it is modelled
by its result, an insertion-ordered association list with distinct keys.
The `systemctl show` subprocess run for one unit is modelled by its outcome
`probe u = (returncode, stdout)`, and `_read_description` by a function from
the unit-file path to the description string. -/

/-- The four properties requested from `systemctl show`, with the initial
empty-string defaults of `get_unit_status`. -/
structure ShowData where
  activeState : String
  subState : String
  loadState : String
  unitFileState : String
deriving DecidableEq

/-- One line of the `systemctl show` output (src/app/systemd.py lines
87-91): `if "=" in line: k, v = line.split("=", 1); if k in data: data[k] = v`. -/
def applyShowLine (d : ShowData) (line : String) : ShowData :=
  match line.splitOn "=" with
  | [] => d
  | [_] => d
  | k :: restParts =>
    let v := String.intercalate "=" restParts
    if k = "ActiveState" then { d with activeState := v }
    else if k = "SubState" then { d with subState := v }
    else if k = "LoadState" then { d with loadState := v }
    else if k = "UnitFileState" then { d with unitFileState := v }
    else d

/-- Result dict of `get_unit_status` before the description is attached. -/
structure UnitStatus where
  unit : String
  active_state : String
  sub_state : String
  load_state : String
  unit_file_state : String
deriving DecidableEq

/-- A full service record as produced by `services_snapshot`. -/
structure ServiceRecord where
  unit : String
  active_state : String
  sub_state : String
  load_state : String
  unit_file_state : String
  description : String
deriving DecidableEq

/-- `get_unit_status` (src/app/systemd.py lines 70-98): start from empty
state fields and fill them from the probe's stdout only when the probe's
return code is `0`; a failing probe leaves every state field empty and does
not raise. -/
def get_unit_status (unit : String) (probe : Int × String) : UnitStatus :=
  let d0 : ShowData := ⟨"", "", "", ""⟩
  let d := if probe.1 = 0 then (probe.2.splitOn "\n").foldl applyShowLine d0 else d0
  ⟨unit, d.activeState, d.subState, d.loadState, d.unitFileState⟩

/-- Attachment of the description in `services_snapshot` (src/app/systemd.py
lines 112-114): `path = units.get(item["unit"]); item["description"] =
_read_description(path) if path else ""` (the empty path string is falsy). -/
def attachDescription (units : List (String × String)) (readDescr : String → String)
    (item : UnitStatus) : ServiceRecord :=
  let desc := match dget item.unit units with
    | some path => if path = "" then "" else readDescr path
    | none => ""
  ⟨item.unit, item.active_state, item.sub_state, item.load_state,
    item.unit_file_state, desc⟩

/-- `services_snapshot` (src/app/systemd.py lines 101-116): probe every
discovered unit, attach descriptions, and sort by unit name ascending
(`results.sort(key=lambda x: x["unit"])`, a stable sort on the string
key, modelled by a stable merge sort under the code-point order). -/
def services_snapshot (units : List (String × String)) (probe : String → Int × String)
    (readDescr : String → String) : List ServiceRecord :=
  let results := units.map (fun up => get_unit_status up.1 (probe up.1))
  let withDescr := results.map (attachDescription units readDescr)
  withDescr.mergeSort (fun a b => decide (a.unit ≤ b.unit))

/-- C8: the snapshot is ordered by unit name ascending (code-point order, as
Python compares strings), carries exactly one record per discovered unit,
and a probe failing with a non-zero exit status yields a record with empty
state fields (and its description still attached) instead of failing the
whole snapshot. -/
theorem C8_services_snapshot (units : List (String × String))
    (probe : String → Int × String) (readDescr : String → String)
    (hnd : (units.map Prod.fst).Nodup) :
    List.Pairwise (fun a b : ServiceRecord => a.unit ≤ b.unit)
      (services_snapshot units probe readDescr) ∧
    ((services_snapshot units probe readDescr).map (fun r => r.unit)).Perm
      (units.map Prod.fst) ∧
    (∀ u ∈ units.map Prod.fst,
      ((services_snapshot units probe readDescr).map (fun r => r.unit)).count u = 1) ∧
    (∀ up ∈ units, (probe up.1).1 ≠ 0 →
      ∃ r ∈ services_snapshot units probe readDescr,
        r = ⟨up.1, "", "", "", "", if up.2 = "" then "" else readDescr up.2⟩) := by
  have hperm0 := List.mergeSort_perm
    ((units.map (fun up => get_unit_status up.1 (probe up.1))).map
      (attachDescription units readDescr))
    (fun a b : ServiceRecord => decide (a.unit ≤ b.unit))
  have hsnap : (services_snapshot units probe readDescr).Perm
      ((units.map (fun up => get_unit_status up.1 (probe up.1))).map
        (attachDescription units readDescr)) := hperm0
  have hunits : ((units.map (fun up => get_unit_status up.1 (probe up.1))).map
      (attachDescription units readDescr)).map (fun r => r.unit)
        = units.map Prod.fst := by
    simp only [List.map_map]
    exact List.map_congr_left fun up _ => rfl
  have hpermU : ((services_snapshot units probe readDescr).map (fun r => r.unit)).Perm
      (units.map Prod.fst) := by
    rw [← hunits]
    exact hsnap.map (fun r => r.unit)
  refine ⟨?_, hpermU, ?_, ?_⟩
  · have hs := @List.sorted_mergeSort ServiceRecord
      (fun a b : ServiceRecord => decide (a.unit ≤ b.unit))
      (fun a b c hab hbc => by
        simp only [decide_eq_true_eq] at hab hbc ⊢
        exact le_trans hab hbc)
      (fun a b => by
        simp only [Bool.or_eq_true, decide_eq_true_eq]
        exact le_total a.unit b.unit)
      ((units.map (fun up => get_unit_status up.1 (probe up.1))).map
        (attachDescription units readDescr))
    exact hs.imp fun hab => of_decide_eq_true hab
  · intro u hu
    rw [hpermU.count_eq u]
    exact List.count_eq_one_of_mem hnd hu
  · intro up hup hrc
    refine ⟨attachDescription units readDescr (get_unit_status up.1 (probe up.1)),
      hsnap.mem_iff.mpr (List.mem_map_of_mem (attachDescription units readDescr)
        (List.mem_map_of_mem (fun up => get_unit_status up.1 (probe up.1)) hup)), ?_⟩
    have hget : dget up.1 units = some up.2 := dget_of_mem_nodup hnd hup
    simp [attachDescription, get_unit_status, if_neg hrc, hget]

/-- Witness for C8: two units, one with a healthy probe and one whose probe
exits non-zero. -/
theorem C8_services_snapshot_witness :
    List.Pairwise (fun a b : ServiceRecord => a.unit ≤ b.unit)
      (services_snapshot [("b.service", "/u/b"), ("a.service", "/u/a")]
        (fun u => if u = "a.service" then ((0:Int), "ActiveState=active\nSubState=running") else ((1:Int), ""))
        (fun p => p ++ "!")) ∧
    ((services_snapshot [("b.service", "/u/b"), ("a.service", "/u/a")]
        (fun u => if u = "a.service" then ((0:Int), "ActiveState=active\nSubState=running") else ((1:Int), ""))
        (fun p => p ++ "!")).map (fun r => r.unit)).Perm
      ([("b.service", "/u/b"), ("a.service", "/u/a")].map Prod.fst) ∧
    (∀ u ∈ [("b.service", "/u/b"), ("a.service", "/u/a")].map Prod.fst,
      ((services_snapshot [("b.service", "/u/b"), ("a.service", "/u/a")]
        (fun u => if u = "a.service" then ((0:Int), "ActiveState=active\nSubState=running") else ((1:Int), ""))
        (fun p => p ++ "!")).map (fun r => r.unit)).count u = 1) ∧
    (∀ up ∈ [("b.service", "/u/b"), ("a.service", "/u/a")], ((fun u => if u = "a.service" then ((0:Int), "ActiveState=active\nSubState=running") else ((1:Int), "")) up.1).1 ≠ 0 →
      ∃ r ∈ services_snapshot [("b.service", "/u/b"), ("a.service", "/u/a")]
        (fun u => if u = "a.service" then ((0:Int), "ActiveState=active\nSubState=running") else ((1:Int), ""))
        (fun p => p ++ "!"),
        r = ⟨up.1, "", "", "", "", if up.2 = "" then "" else up.2 ++ "!"⟩) :=
  C8_services_snapshot [("b.service", "/u/b"), ("a.service", "/u/a")]
    (fun u => if u = "a.service" then ((0:Int), "ActiveState=active\nSubState=running") else ((1:Int), ""))
    (fun p => p ++ "!") (by decide)
